import Mathlib

/-
Shallow embedding of TrashShell (src/shell.py), an interactive shell:
tokenization (shlex.split, posix mode), segmentation on the operator
tokens `&&`/`||`/`;`, the operator-gated evaluation loop, single-command
dispatch (assignment intercept, variable expansion, builtin/external
resolution), and the pipeline constructor.

External effects (process spawning, the filesystem, the environment) are
modelled by an `Env` of oracles; observable actions (spawned processes,
kills, waits, builtin invocations) are recorded in an event log.
-/

namespace TrashShell

/-! ## Python string primitives used by shell.py -/

/-- Python whitespace characters recognised by `str.strip` / `str.split`
(ASCII fragment: space, tab, newline, carriage return, vertical tab,
form feed). -/
def isPySpace (c : Char) : Bool :=
  c == ' ' || c == '\t' || c == '\n' || c == '\r' ||
  c == Char.ofNat 11 || c == Char.ofNat 12

/-- Characters matched by the regex class `\w` in `expand_vars`
(ASCII fragment: letters, digits, underscore). -/
def isWordChar (c : Char) : Bool :=
  c.isAlphanum || c == '_'

/-- `l` with leading and trailing Python whitespace removed. -/
def stripChars (l : List Char) : List Char :=
  ((l.dropWhile isPySpace).reverse.dropWhile isPySpace).reverse

/-- Python `str.strip()` (no argument). -/
def pyStrip (s : String) : String :=
  String.mk (stripChars s.toList)

/-- Core of Python `str.split()` (no argument): split on runs of
whitespace, discarding empty pieces; `cur` is the word in progress. -/
def pySplitChars : List Char → List Char → List String
  | [], cur => if cur.isEmpty then [] else [String.mk cur]
  | c :: cs, cur =>
    if isPySpace c then
      if cur.isEmpty then pySplitChars cs []
      else String.mk cur :: pySplitChars cs []
    else pySplitChars cs (cur ++ [c])

/-- Python `str.split()` (no argument). -/
def pySplit (s : String) : List String :=
  pySplitChars s.toList []

/-- Core of Python `str.split('|')`: split at every `|`, keeping empty
pieces; always returns at least one piece. -/
def splitPipeChars : List Char → List (List Char)
  | [] => [[]]
  | c :: cs =>
    match splitPipeChars cs with
    | [] => [[]]
    | g :: gs => if c == '|' then [] :: g :: gs else (c :: g) :: gs

/-- Python `line.split('|')`. -/
def pySplitOnPipe (s : String) : List String :=
  (splitPipeChars s.toList).map String.mk

/-- Python `c in s` for a single character. -/
def containsChar (s : String) (c : Char) : Bool :=
  s.toList.contains c

/-- Python `' '.join(tokens)`. -/
def joinSpace : List String → String
  | [] => ""
  | [s] => s
  | s :: rest => s ++ " " ++ joinSpace rest

/-- Python `s.startswith(p)`. -/
def pyStartsWith (s p : String) : Bool :=
  p.toList.isPrefixOf s.toList

/-- Core of Python `s.partition('=')`: the text before the first `=` and
the text after it (the caller only uses it when `=` occurs in `s`). -/
def breakAtEqChars : List Char → List Char × List Char
  | [] => ([], [])
  | c :: cs =>
    if c == '=' then ([], cs)
    else
      match breakAtEqChars cs with
      | (before, after) => (c :: before, after)

/-- Python `s.partition('=')` restricted to its first and third results. -/
def breakAtEq (s : String) : String × String :=
  match breakAtEqChars s.toList with
  | (before, after) => (String.mk before, String.mk after)

/-- Python `str.isidentifier()` (ASCII fragment): nonempty, first char a
letter or `_`, remaining chars letters, digits or `_`. -/
def pyIsIdentifier (s : String) : Bool :=
  match s.toList with
  | [] => false
  | c :: cs => (c.isAlpha || c == '_') && cs.all isWordChar

/-! ## shlex.split(line, posix=True)

`shlex.split` with `posix=True` and `whitespace_split=True` (the settings
used by `shlex.split`): whitespace separates tokens; `'...'` preserves
text literally; `"..."` preserves text except that `\` escapes `\` and
`"` (and is otherwise kept); outside quotes `\` escapes any character;
quotes are removed from the token; a quoted empty string yields an empty
token; an unterminated quote or a trailing escape raises `ValueError`
(modelled as `none`). -/

/-- Lexer state of the shlex scanner: in a word (or between words), in a
single-quoted span, in a double-quoted span, after a backslash outside
quotes, after a backslash inside a double-quoted span. -/
inductive LexState
  | word
  | squote
  | dquote
  | escWord
  | escDquote
  deriving DecidableEq

/-- The shlex scanner: remaining input, state, token in progress, whether
the token in progress saw a quote (so an empty quoted token is emitted),
tokens already produced. -/
def shlexAux : List Char → LexState → String → Bool → List String →
    Option (List String)
  | [], .word, tok, q, acc =>
    some (if tok ≠ "" ∨ q then acc ++ [tok] else acc)
  | [], _, _, _, _ => none
  | c :: cs, .word, tok, q, acc =>
    if isPySpace c then
      if tok ≠ "" ∨ q then shlexAux cs .word "" false (acc ++ [tok])
      else shlexAux cs .word tok q acc
    else if c == '\'' then shlexAux cs .squote tok true acc
    else if c == '"' then shlexAux cs .dquote tok true acc
    else if c == '\\' then shlexAux cs .escWord tok q acc
    else shlexAux cs .word (tok.push c) q acc
  | c :: cs, .squote, tok, _, acc =>
    if c == '\'' then shlexAux cs .word tok true acc
    else shlexAux cs .squote (tok.push c) true acc
  | c :: cs, .dquote, tok, _, acc =>
    if c == '"' then shlexAux cs .word tok true acc
    else if c == '\\' then shlexAux cs .escDquote tok true acc
    else shlexAux cs .dquote (tok.push c) true acc
  | c :: cs, .escWord, tok, q, acc =>
    shlexAux cs .word (tok.push c) q acc
  | c :: cs, .escDquote, tok, _, acc =>
    if c == '\\' ∨ c == '"' then shlexAux cs .dquote (tok.push c) true acc
    else shlexAux cs .dquote ((tok.push '\\').push c) true acc

/-- `shlex.split(line, posix=True)`; `none` models the `ValueError`
raised on an unterminated quote or trailing escape. -/
def shlexSplit (s : String) : Option (List String) :=
  shlexAux s.toList .word "" false []

/-! ## The external world and the observable effects

`shell.py` talks to the outside world through `shutil.which`,
`subprocess.Popen`, `os.environ`, and the filesystem-dependent builtins
`cd` and `ld`.  These are modelled as oracles in `Env`.  Observable
actions are recorded as `Event`s in order. -/

/-- Oracles for the outside world. `which` is `shutil.which`;
`externStatus` is the exit status of an external command run by
`execute_external`; `stageSpawnOk` tells whether `Popen(cmd, shell=True)`
for a pipeline stage succeeds and `stageStatus` gives that stage's exit
status after `wait()`; `environ` is `os.environ`; `cdStatus`/`ldStatus`
give the filesystem-dependent outcome of `os.chdir`/`os.listdir` inside
the `cd`/`ld` builtins. -/
structure Env where
  which : String → Option String
  externStatus : String → List String → Int
  stageSpawnOk : String → Bool
  stageStatus : String → Int
  environ : String → Option String
  cdStatus : List String → Int
  ldStatus : List String → Int

/-- Observable actions of the shell, in order of occurrence. -/
inductive Event
  | spawn (path : String) (args : List String)
  | spawnStage (cmd : String)
  | killStage (cmd : String)
  | waitStage (cmd : String)
  | builtin (name : String) (args : List String)
  deriving DecidableEq

/-- Mutable shell state: the `user_vars` dict (as an association list in
insertion order) and the log of observable events so far. -/
structure St where
  vars : List (String × String)
  events : List Event
  deriving DecidableEq

/-- Python `dict` lookup on the association list. -/
def assocGet : List (String × String) → String → Option String
  | [], _ => none
  | (k, v) :: rest, name => if k == name then some v else assocGet rest name

/-- Python `dict` assignment: overwrite in place, or append a new key. -/
def assocSet : List (String × String) → String → String →
    List (String × String)
  | [], k, v => [(k, v)]
  | (k', v') :: rest, k, v =>
    if k' == k then (k, v) :: rest else (k', v') :: assocSet rest k v

/-! ## expand_vars (shell.py lines 33-38) -/

/-- `user_vars.get(name) or os.environ.get(name, "")`: the user variable
if present and non-empty, else the process environment, else `""`. -/
def lookupVar (env : Env) (vars : List (String × String)) (name : String) :
    String :=
  match assocGet vars name with
  | some v => if v == "" then (env.environ name).getD "" else v
  | none => (env.environ name).getD ""

/-- Flush a finished `$NAME` scan: a bare `$` (no word characters after
it) does not match `\$(\w+)` and stays literal; otherwise the match is
replaced by the looked-up value. -/
def flushName (env : Env) (vars : List (String × String)) (name : List Char) :
    List Char :=
  if name.isEmpty then ['$']
  else (lookupVar env vars (String.mk name)).toList

/-- One left-to-right pass of `re.sub(r'\$(\w+)', ...)`: each `$NAME`
(`$` followed by a maximal nonempty run of word characters) is replaced
once; the substituted text is not rescanned.  The second argument is
`some name` while scanning the word characters after a `$`. -/
def expandVarsAux (env : Env) (vars : List (String × String)) :
    List Char → Option (List Char) → List Char
  | [], none => []
  | [], some name => flushName env vars name
  | c :: cs, none =>
    if c == '$' then expandVarsAux env vars cs (some [])
    else c :: expandVarsAux env vars cs none
  | c :: cs, some name =>
    if isWordChar c then expandVarsAux env vars cs (some (name ++ [c]))
    else if c == '$' then
      flushName env vars name ++ expandVarsAux env vars cs (some [])
    else flushName env vars name ++ c :: expandVarsAux env vars cs none

/-- `expand_vars(command)` (shell.py lines 33-38). -/
def expand_vars (env : Env) (vars : List (String × String)) (command : String) :
    String :=
  String.mk (expandVarsAux env vars command.toList none)

/-! ## assign_variable (shell.py lines 40-49) -/

/-- `assign_variable(line)`: `none` models returning `False`, `some vars'`
models returning `True` with `user_vars` updated. -/
def assign_variable (vars : List (String × String)) (line : String) :
    Option (List (String × String)) :=
  if !(containsChar line '=') || pyStartsWith (pyStrip line) "export " then
    none
  else
    let p := breakAtEq line
    let var := pyStrip p.1
    let val := pyStrip p.2
    if pyIsIdentifier var then some (assocSet vars var val) else none

/-! ## Builtins (shell.py lines 51-134)

The builtin table at shell.py line 80 maps these names to handlers.
(Evaluating that table at module load actually fails, see the module
initialisation model below; this list records the intended keys.)
`help`, `clear`, `env`, `set` and `e` always return 0; `set` also updates
`user_vars`; `cd` with more than one argument returns 1, otherwise its
status (like `ld`'s) depends on the filesystem oracle; `exit` raises
`SystemExit`, which `execute_internal` re-raises. -/

/-- The keys of the `internal_commands` dict (shell.py lines 80-89). -/
def internal_commands : List String :=
  ["help", "exit", "clear", "env", "set", "cd", "ld", "e"]

/-- Status and `user_vars` effect of a non-`exit` builtin. -/
def builtinRun (env : Env) (vars : List (String × String)) (cmd : String)
    (args : List String) : Int × List (String × String) :=
  if cmd == "set" then
    match args with
    | a :: rest =>
      if !rest.isEmpty && pyIsIdentifier a then
        (0, assocSet vars a (joinSpace rest))
      else (0, vars)
    | [] => (0, vars)
  else if cmd == "cd" then
    if args.length > 1 then (1, vars) else (env.cdStatus args, vars)
  else if cmd == "ld" then (env.ldStatus args, vars)
  else (0, vars)

/-- Result of running one command: a normal integer status with the new
state, or a `SystemExit` request propagating out of the line. -/
inductive CmdRes
  | normal (code : Int) (st : St)
  | exitReq (st : St)
  deriving DecidableEq

/-- `execute_internal(cmd, args)` (shell.py lines 127-134): invoke the
builtin; `SystemExit` from `exit` is re-raised; the modelled builtins
raise nothing else. -/
def execute_internal (env : Env) (st : St) (cmd : String)
    (args : List String) : CmdRes :=
  if cmd == "exit" then
    .exitReq { st with events := st.events ++ [.builtin cmd args] }
  else
    match builtinRun env st.vars cmd args with
    | (code, vars') =>
      .normal code { vars := vars', events := st.events ++ [.builtin cmd args] }

/-! ## run_command (shell.py lines 147-169) -/

/-- Dispatch of the whitespace-split words (shell.py lines 155-169):
empty word list is a no-op; a builtin name dispatches internally; else
resolve on the search path and spawn, or report status 127. -/
def dispatchWords (env : Env) (st : St) : List String → CmdRes
  | [] => .normal 0 st
  | cmd :: args =>
    if cmd ∈ internal_commands then execute_internal env st cmd args
    else
      match env.which cmd with
      | some path =>
        .normal (env.externStatus path args)
          { st with events := st.events ++ [.spawn path args] }
      | none => .normal 127 st

/-- `run_command(line)` (shell.py lines 147-169): strip; empty line is a
no-op; the assignment intercept runs before expansion; then the line is
expanded, whitespace-split and dispatched. -/
def run_command (env : Env) (st : St) (line0 : String) : CmdRes :=
  let line := pyStrip line0
  if line == "" then .normal 0 st
  else
    match assign_variable st.vars line with
    | some vars' => .normal 0 { st with vars := vars' }
    | none => dispatchWords env st (pySplit (expand_vars env st.vars line))

/-! ## run_pipeline (shell.py lines 171-210) -/

/-- `cmd.split()[0] if cmd else ""` for a (stripped) stage string. -/
def firstWord (cmd : String) : String :=
  match pySplit cmd with
  | [] => ""
  | w :: _ => w

/-- The stage loop of `run_pipeline` (shell.py lines 179-210): for each
stage in order, a builtin first word kills the already-spawned stages and
aborts with status 1; a spawn failure does the same; otherwise the stage
is spawned.  After the loop every spawned stage is waited on in order and
the status is the last stage's exit status.  `user_vars` is never
touched, so the loop acts on the event log alone. -/
def pipelineLoop (env : Env) : List String → List String → List Event →
    Int × List Event
  | [], procs, evs =>
    (match procs.getLast? with
     | some c => env.stageStatus c
     | none => 0,
     evs ++ procs.map Event.waitStage)
  | cmd :: rest, procs, evs =>
    if firstWord cmd ∈ internal_commands then
      (1, evs ++ procs.map Event.killStage)
    else if env.stageSpawnOk cmd then
      pipelineLoop env rest (procs ++ [cmd]) (evs ++ [Event.spawnStage cmd])
    else (1, evs ++ procs.map Event.killStage)

/-- `[cmd.strip() for cmd in line.split('|')]` (shell.py line 172). -/
def pipeStages (line : String) : List String :=
  (pySplitOnPipe line).map pyStrip

/-- The exit status of the last stage of `l` (`retcodes[-1] if retcodes
else 0`, shell.py line 210). -/
def lastStageStatus (env : Env) (l : List String) : Int :=
  match l.getLast? with
  | some c => env.stageStatus c
  | none => 0

/-- `run_pipeline(line)` (shell.py lines 171-210). -/
def run_pipeline (env : Env) (st : St) (line : String) : Int × St :=
  let commands := pipeStages line
  if commands.isEmpty then (0, st)
  else
    match pipelineLoop env commands [] st.events with
    | (code, evs) => (code, { st with events := evs })

/-! ## execute_line (shell.py lines 212-255) -/

/-- The three operator tokens of shell.py line 224. -/
def opTokens : List String :=
  ["&&", "||", ";"]

/-- The segmentation loop of shell.py lines 217-232: walk the tokens,
closing the current segment (the space-join of its tokens) at each
operator token; a trailing non-operator run closes a final segment. -/
def segmentizeAux : List String → List String → List String → List String →
    List String × List String
  | [], current, segs, ops =>
    (if !current.isEmpty then segs ++ [joinSpace current] else segs, ops)
  | t :: ts, current, segs, ops =>
    if t ∈ opTokens then
      segmentizeAux ts [] (segs ++ [joinSpace current]) (ops ++ [t])
    else segmentizeAux ts (current ++ [t]) segs ops

/-- Segments and operators of a token list (shell.py lines 217-232). -/
def segmentize (tokens : List String) : List String × List String :=
  segmentizeAux tokens [] [] []

/-- Each segment paired with the operator before it (`none` for the
first segment): segment `i > 0` is evaluated under `operators[i-1]`. -/
def pairSegs (segs ops : List String) : List (Option String × String) :=
  match segs with
  | [] => []
  | s :: ss => (none, s) :: (ss.zip ops).map (fun p => (some p.2, p.1))

/-- Outcome of `execute_line`: a tokenization `ValueError`, normal
completion, or a `SystemExit` escaping the line.  The model also reports
the final `last_code` and the indices of the segments that were actually
executed (model instrumentation; the source returns `None`). -/
inductive LineOut
  | tokErr
  | finished (st : St) (code : Int) (execd : List Nat)
  | exited (st : St) (execd : List Nat)
  deriving DecidableEq

/-- The evaluation loop of shell.py lines 236-255, verbatim: `proceed`
starts `True`; at segment `i > 0` it is recomputed from the operator and
`last_code`; a skipped segment leaves `last_code` alone; an executed
segment goes through `run_pipeline` when its text contains `|`, else
through `run_command`. -/
def runSegsAux (env : Env) : List (Option String × String) → Bool → Int →
    Nat → St → List Nat → LineOut
  | [], _, code, _, st, ex => .finished st code ex
  | (op?, seg) :: rest, pr, code, idx, st, ex =>
    let proceed :=
      match op? with
      | none => pr
      | some op =>
        if op == "&&" && code != 0 then false
        else if op == "||" && code == 0 then false
        else true
    if proceed then
      if containsChar seg '|' then
        match run_pipeline env st seg with
        | (c, st') => runSegsAux env rest proceed c (idx + 1) st' (ex ++ [idx])
      else
        match run_command env st seg with
        | .normal c st' =>
          runSegsAux env rest proceed c (idx + 1) st' (ex ++ [idx])
        | .exitReq st' => .exited st' (ex ++ [idx])
    else runSegsAux env rest proceed code (idx + 1) st ex

/-- `execute_line(line)` (shell.py lines 212-255). -/
def execute_line (env : Env) (st : St) (line : String) : LineOut :=
  match shlexSplit line with
  | none => .tokErr
  | some tokens =>
    if tokens.isEmpty then .finished st 0 []
    else
      match segmentize tokens with
      | (segs, ops) => runSegsAux env (pairSegs segs ops) true 0 0 st []

/-! ## The specification-side operator gate

`gateOK` and `specGateEval` transcribe the claim's words: segment `i > 0`
executes iff its operator is `;`, or it is `&&` and the live status is 0,
or it is `||` and the live status is non-zero; a skipped segment does not
update the live status.  They are written from the specification, to be
compared with `execute_line`, which is written from the source. -/

/-- The claim's gate: the segment after `op` runs iff `op` is `;`, or
`op` is `&&` and the live status is 0, or `op` is `||` and the live
status is non-zero. -/
def gateOK (op : String) (live : Int) : Bool :=
  op == ";" || (op == "&&" && live == 0) || (op == "||" && live != 0)

/-- The claim's state machine: walk the segments left to right, gating
each segment after the first with `gateOK`; an executed segment's status
becomes the live status, a skipped segment leaves it alone; a segment
raising the shell-exit request stops the line. -/
def specGateEval (env : Env) : List (Option String × String) → Int → Nat →
    St → List Nat → LineOut
  | [], live, _, st, ex => .finished st live ex
  | (op?, seg) :: rest, live, idx, st, ex =>
    let go :=
      match op? with
      | none => true
      | some op => gateOK op live
    if go then
      if containsChar seg '|' then
        match run_pipeline env st seg with
        | (c, st') => specGateEval env rest c (idx + 1) st' (ex ++ [idx])
      else
        match run_command env st seg with
        | .normal c st' =>
          specGateEval env rest c (idx + 1) st' (ex ++ [idx])
        | .exitReq st' => .exited st' (ex ++ [idx])
    else specGateEval env rest live (idx + 1) st ex

/-- `execute_line` as the specification describes it: tokenize, segment,
then run the claim's state machine. -/
def claimExecuteLine (env : Env) (st : St) (line : String) : LineOut :=
  match shlexSplit line with
  | none => .tokErr
  | some tokens =>
    if tokens.isEmpty then .finished st 0 []
    else
      match segmentize tokens with
      | (segs, ops) => specGateEval env (pairSegs segs ops) 0 0 st []

/-! ## A concrete world for counterexamples and witnesses -/

/-- A concrete world: no external command resolves (`which` finds
nothing, so non-builtins report 127), every pipeline `Popen` succeeds,
every child exits 0, the process environment is empty, and `cd`/`ld`
succeed. -/
def env0 : Env :=
  ⟨fun _ => none, fun _ _ => 0, fun _ => true, fun _ => 0, fun _ => none,
   fun _ => 0, fun _ => 0⟩

/-- The initial shell state: no user variables, no events. -/
def st0 : St :=
  ⟨[], []⟩

/-! ## Module initialisation (shell.py top level)

Python executes a module's top-level statements in order, binding each
name as its statement runs.  A `def` statement binds the function name
without evaluating the body's free names; the dict literal assigned to
`internal_commands` (shell.py lines 80-89) evaluates its value
expressions immediately, so every handler name it mentions must already
be bound, else a `NameError` is raised and the rest of the module -
including the `main()` call that starts the interactive loop - never
runs. -/

/-- A top-level statement of shell.py, as far as name binding goes:
a statement binding one name without reading others (`def`, simple
assignments), the `internal_commands` dict literal (which reads the
listed handler names), or the final `main()` call. -/
inductive TopStmt
  | bind (name : String)
  | table (name : String) (needs : List String)
  | callMain
  deriving DecidableEq

/-- Outcome of running the module top level: a `NameError` on the given
missing name, reaching the `main()` call, or falling off the end. -/
inductive ModuleOutcome
  | nameError (missing : String)
  | enteredMain
  | completed
  deriving DecidableEq

/-- Run the top-level statements in order against the set of names bound
so far. -/
def runModule : List TopStmt → List String → ModuleOutcome
  | [], _ => .completed
  | .bind n :: rest, bound => runModule rest (bound ++ [n])
  | .table n needs :: rest, bound =>
    match needs.find? (fun m => !(bound.contains m)) with
    | some m => .nameError m
    | none => runModule rest (bound ++ [n])
  | .callMain :: _, _ => .enteredMain

/-- The top-level statements of shell.py in source order (lines 15-294):
the assignments and `def`s before the `internal_commands` dict, the dict
itself with the handler names its values read (in dict-literal order),
the remaining `def`s, and the `main()` call under
`if __name__ == "__main__"`. -/
def shellModule : List TopStmt :=
  [.bind "HISTFILE", .bind "HISTORY_LIMIT", .bind "user_vars",
   .bind "load_history", .bind "save_history", .bind "expand_vars",
   .bind "assign_variable", .bind "internal_help", .bind "internal_exit",
   .bind "internal_clear", .bind "internal_env", .bind "internal_set",
   .table "internal_commands"
     ["internal_help", "internal_exit", "internal_clear", "internal_env",
      "internal_set", "internal_cd", "internal_ls", "internal_echo"],
   .bind "internal_cd", .bind "internal_ls", .bind "internal_echo",
   .bind "execute_internal", .bind "execute_external", .bind "run_command",
   .bind "run_pipeline", .bind "execute_line", .bind "shorten_cwd",
   .bind "prompt", .bind "main", .callMain]

/-! ## Helper lemmas -/

/-- `str.split('|')` always yields at least one piece. -/
theorem splitPipeChars_ne_nil (l : List Char) : splitPipeChars l ≠ [] := by
  induction l with
  | nil => simp [splitPipeChars]
  | cons c cs ih =>
    simp only [splitPipeChars]
    cases h : splitPipeChars cs with
    | nil => simp
    | cons g gs =>
      by_cases hcp : c == '|' <;> simp [hcp]

/-- A pipeline segment always has at least one stage. -/
theorem pipeStages_ne_nil (line : String) : pipeStages line ≠ [] := by
  simp only [pipeStages, pySplitOnPipe, ne_eq, List.map_eq_nil_iff]
  exact splitPipeChars_ne_nil _

theorem isEmpty_false_of_ne_nil {α : Type} {l : List α} (h : l ≠ []) :
    l.isEmpty = false := by
  cases l with
  | nil => exact absurd rfl h
  | cons a t => rfl

/-- The stage loop when every stage passes the builtin check and spawns:
all stages are spawned, all are waited on in order, and the status is the
last stage's exit status. -/
theorem pipelineLoop_all_ok (env : Env) :
    ∀ (cmds procs : List String) (evs : List Event),
      (∀ x ∈ cmds, firstWord x ∉ internal_commands ∧ env.stageSpawnOk x = true) →
      pipelineLoop env cmds procs evs =
        (lastStageStatus env (procs ++ cmds),
         evs ++ cmds.map Event.spawnStage ++ (procs ++ cmds).map Event.waitStage) := by
  intro cmds
  induction cmds with
  | nil =>
    intro procs evs _
    simp [pipelineLoop, lastStageStatus]
  | cons x cmds ih =>
    intro procs evs h
    have hx := h x (List.mem_cons_self _ _)
    have hrest : ∀ y ∈ cmds, firstWord y ∉ internal_commands ∧
        env.stageSpawnOk y = true :=
      fun y hy => h y (List.mem_cons_of_mem _ hy)
    have step : pipelineLoop env (x :: cmds) procs evs =
        pipelineLoop env cmds (procs ++ [x]) (evs ++ [Event.spawnStage x]) := by
      simp [pipelineLoop, hx.1, hx.2]
    rw [step, ih (procs ++ [x]) (evs ++ [Event.spawnStage x]) hrest,
      List.append_cons procs x cmds]
    simp [List.append_assoc]

/-- The stage loop when some stage's first word is a builtin and every
earlier stage passes the builtin check: status 1; the stages before the
builtin stage that spawn successfully are spawned and then killed; no
stage from the builtin stage on is ever spawned. -/
theorem pipelineLoop_builtin_abort (env : Env) (c : String)
    (post : List String) (hc : firstWord c ∈ internal_commands) :
    ∀ (pre procs : List String) (evs : List Event),
      (∀ x ∈ pre, firstWord x ∉ internal_commands) →
      pipelineLoop env (pre ++ c :: post) procs evs =
        (1, evs ++ (pre.takeWhile env.stageSpawnOk).map Event.spawnStage ++
            (procs ++ pre.takeWhile env.stageSpawnOk).map Event.killStage) := by
  intro pre
  induction pre with
  | nil =>
    intro procs evs _
    simp [pipelineLoop, hc]
  | cons x pre ih =>
    intro procs evs h
    have hx := h x (List.mem_cons_self _ _)
    have hrest : ∀ y ∈ pre, firstWord y ∉ internal_commands :=
      fun y hy => h y (List.mem_cons_of_mem _ hy)
    cases hs : env.stageSpawnOk x with
    | true =>
      have step : pipelineLoop env ((x :: pre) ++ c :: post) procs evs =
          pipelineLoop env (pre ++ c :: post) (procs ++ [x])
            (evs ++ [Event.spawnStage x]) := by
        simp [pipelineLoop, hx, hs]
      rw [step, ih (procs ++ [x]) (evs ++ [Event.spawnStage x]) hrest]
      simp [List.takeWhile_cons, hs, List.append_assoc]
    | false =>
      have step : pipelineLoop env ((x :: pre) ++ c :: post) procs evs =
          (1, evs ++ procs.map Event.killStage) := by
        simp [pipelineLoop, hx, hs]
      rw [step]
      simp [List.takeWhile_cons, hs]

/-- `run_pipeline` never reads or writes `user_vars` and never expands
variables: its status and its events are independent of the variable
store, which it returns unchanged. -/
theorem run_pipeline_vars_independent (env : Env)
    (vars : List (String × String)) (evs : List Event) (line : String) :
    run_pipeline env ⟨vars, evs⟩ line =
      ((run_pipeline env ⟨[], evs⟩ line).1,
       ⟨vars, (run_pipeline env ⟨[], evs⟩ line).2.events⟩) := by
  simp only [run_pipeline]
  cases h : (pipeStages line).isEmpty with
  | true => simp
  | false =>
    cases hp : pipelineLoop env (pipeStages line) [] evs with
    | mk code evts => simp

/-- A command whose text strips to the empty string is a no-op:
`run_command` returns status 0 and leaves the state untouched (shell.py
lines 148-150). -/
theorem run_command_blank (env : Env) (st : St) (s : String)
    (h : pyStrip s = "") : run_command env st s = CmdRes.normal 0 st := by
  simp [run_command, h]

/-- When the assignment intercept does not fire, `run_command` strips the
segment, expands it, whitespace-splits the result and dispatches the
words (shell.py lines 154-169). -/
theorem run_command_eq_dispatch (env : Env) (st : St) (s : String)
    (h1 : pyStrip s ≠ "") (h2 : assign_variable st.vars (pyStrip s) = none) :
    run_command env st s =
      dispatchWords env st (pySplit (expand_vars env st.vars (pyStrip s))) := by
  have hb : (pyStrip s == "") = false := by simpa using h1
  simp [run_command, hb, h2]

/-- When the assignment intercept fires, `run_command` returns status 0
with the store updated and performs no expansion, no dispatch and no
event (shell.py lines 151-152). -/
theorem run_command_assign (env : Env) (st : St) (s : String)
    (vars' : List (String × String))
    (h1 : pyStrip s ≠ "")
    (h2 : assign_variable st.vars (pyStrip s) = some vars') :
    run_command env st s = CmdRes.normal 0 { st with vars := vars' } := by
  have hb : (pyStrip s == "") = false := by simpa using h1
  simp [run_command, hb, h2]

/-- Every operator the segmenter records is one of `&&`, `||`, `;`. -/
theorem segmentizeAux_ops :
    ∀ (ts current segs ops : List String),
      (∀ o ∈ ops, o ∈ opTokens) →
      ∀ o ∈ (segmentizeAux ts current segs ops).2, o ∈ opTokens := by
  intro ts
  induction ts with
  | nil =>
    intro current segs ops h
    simpa [segmentizeAux] using h
  | cons t ts ih =>
    intro current segs ops h
    simp only [segmentizeAux]
    by_cases ht : t ∈ opTokens
    · rw [if_pos ht]
      refine ih _ _ _ ?_
      intro o ho
      rcases List.mem_append.mp ho with h' | h'
      · exact h o h'
      · exact (List.mem_singleton.mp h').symm ▸ ht
    · rw [if_neg ht]
      exact ih _ _ _ h

/-- Every operator produced by `segmentize` is one of `&&`, `||`, `;`. -/
theorem segmentize_ops (ts : List String) :
    ∀ o ∈ (segmentize ts).2, o ∈ opTokens :=
  segmentizeAux_ops ts [] [] [] (by simp)

/-- For one of the three operator tokens, the source's gate (shell.py
lines 241-247) computes exactly the claim's gate `gateOK`. -/
theorem sourceGate_eq_gateOK (op : String) (code : Int) (h : op ∈ opTokens) :
    (if op == "&&" && code != 0 then false
     else if op == "||" && code == 0 then false
     else true) = gateOK op code := by
  simp only [opTokens, List.mem_cons, List.mem_singleton,
    List.not_mem_nil, or_false] at h
  rcases h with h | h | h <;> subst h <;> by_cases hc : code = 0 <;>
    simp [gateOK, hc, bne_iff_ne, beq_iff_eq]

/-- On a pair list whose every element carries one of the three operator
tokens, the source's evaluation loop agrees with the claim's state
machine, whatever the incoming value of `proceed` is (the source
recomputes `proceed` at every segment after the first). -/
theorem runSegsAux_eq_specGateEval (env : Env) :
    ∀ (pairs : List (Option String × String)),
      (∀ p ∈ pairs, ∃ o, p.1 = some o ∧ o ∈ opTokens) →
      ∀ (pr : Bool) (code : Int) (idx : Nat) (st : St) (ex : List Nat),
        runSegsAux env pairs pr code idx st ex =
          specGateEval env pairs code idx st ex := by
  intro pairs
  induction pairs with
  | nil => intro _ pr code idx st ex; rfl
  | cons p rest ih =>
    intro h pr code idx st ex
    obtain ⟨o, hp, hop⟩ := h p (List.mem_cons_self _ _)
    have hrest : ∀ q ∈ rest, ∃ o, q.1 = some o ∧ o ∈ opTokens :=
      fun q hq => h q (List.mem_cons_of_mem _ hq)
    obtain ⟨op?, seg⟩ := p
    rcases hp with rfl
    simp only [runSegsAux, specGateEval]
    rw [sourceGate_eq_gateOK o code hop]
    cases hg : gateOK o code with
    | false => simpa using ih hrest _ _ _ _ _
    | true =>
      cases hpipe : containsChar seg '|' with
      | true =>
        cases hr : run_pipeline env st seg with
        | mk c st' => simpa [hr] using ih hrest _ _ _ _ _
      | false =>
        cases hr : run_command env st seg with
        | normal c st' => simpa [hr] using ih hrest _ _ _ _ _
        | exitReq st' => simp [hr]

/-- Every pair after the first produced by `pairSegs` from operators
drawn from the three operator tokens carries one of them. -/
theorem pairSegs_tail_ops (ss ops : List String)
    (hops : ∀ o ∈ ops, o ∈ opTokens) :
    ∀ q ∈ (ss.zip ops).map (fun p => (some p.2, p.1)),
      ∃ o, q.1 = some o ∧ o ∈ opTokens := by
  intro q hq
  obtain ⟨⟨a, b⟩, hab, rfl⟩ := List.mem_map.mp hq
  exact ⟨b, rfl, hops b (List.of_mem_zip hab).2⟩

/-- Count invariant of the segmentation loop: starting from balanced
accumulators, the loop ends with one segment more than operators unless
the remaining tokens end with an operator (or run out with nothing
pending), in which case segments and operators balance. -/
theorem segmentizeAux_length :
    ∀ (ts current segs ops : List String), segs.length = ops.length →
      (segmentizeAux ts current segs ops).1.length =
        (segmentizeAux ts current segs ops).2.length +
          (match ts.getLast? with
           | some t => if t ∈ opTokens then 0 else 1
           | none => if current.isEmpty then 0 else 1) := by
  intro ts
  induction ts with
  | nil =>
    intro current segs ops h
    cases hc : current.isEmpty <;> simp [segmentizeAux, hc, h]
  | cons t ts ih =>
    intro current segs ops h
    cases ts with
    | nil =>
      by_cases ht : t ∈ opTokens
      · simp [segmentizeAux, ht, h]
      · simp [segmentizeAux, ht, h]
    | cons b l =>
      rw [List.getLast?_cons_cons]
      simp only [segmentizeAux]
      by_cases ht : t ∈ opTokens
      · rw [if_pos ht]
        exact ih [] (segs ++ [joinSpace current]) (ops ++ [t]) (by simp [h])
      · rw [if_neg ht]
        exact ih (current ++ [t]) segs ops h

/-- Joining strings with single spaces and whitespace-splitting the
result concatenates the individual splits: any grouping of whitespace
inside a token is forgotten. -/
theorem pySplitChars_append_space :
    ∀ (xs cur ys : List Char),
      pySplitChars (xs ++ ' ' :: ys) cur =
        pySplitChars xs cur ++ pySplitChars ys [] := by
  intro xs
  induction xs with
  | nil =>
    intro cur ys
    have hs : isPySpace ' ' = true := rfl
    cases hc : cur.isEmpty <;> simp [pySplitChars, hs, hc]
  | cons x xs ih =>
    intro cur ys
    cases hx : isPySpace x with
    | true =>
      cases hc : cur.isEmpty <;> simp [pySplitChars, hx, hc, ih]
    | false =>
      simp [pySplitChars, hx, ih]

/-- `' '.join(tokens).split()` is the concatenation of each token's own
whitespace split. -/
theorem pySplit_joinSpace :
    ∀ ts : List String, pySplit (joinSpace ts) = (ts.map pySplit).flatten := by
  intro ts
  induction ts with
  | nil => rfl
  | cons s rest ih =>
    cases rest with
    | nil => simp [joinSpace, pySplit]
    | cons s' rest' =>
      have htl : (s ++ " " ++ joinSpace (s' :: rest')).toList =
          s.toList ++ ' ' :: (joinSpace (s' :: rest')).toList := by
        simp [String.toList, String.data_append]
      calc pySplit (joinSpace (s :: s' :: rest'))
          = pySplitChars (s.toList ++ ' ' :: (joinSpace (s' :: rest')).toList)
              [] := by
            simp only [joinSpace, pySplit, htl]
        _ = pySplit s ++ pySplit (joinSpace (s' :: rest')) :=
            pySplitChars_append_space _ _ _
        _ = ((s :: s' :: rest').map pySplit).flatten := by
            simp [ih]

/-! ## Claim C1 -/

/-- Claim C1 counterexample: on the line `exit ; e hi` the operator
before the second segment is `;`, so the claim's gate says the second
segment executes; it does not, because the first segment's `exit` builtin
raises `SystemExit` out of the line (only segment 0 is in the executed
list). -/
theorem C1_counterexample :
    shlexSplit "exit ; e hi" = some ["exit", ";", "e", "hi"] ∧
    segmentize ["exit", ";", "e", "hi"] = (["exit", "e hi"], [";"]) ∧
    execute_line env0 st0 "exit ; e hi" =
      LineOut.exited ⟨[], [Event.builtin "exit" []]⟩ [0] := by
  refine ⟨by decide, by decide, by decide⟩

/-- Claim C1 (amended): for every input line, the evaluator behaves
exactly as the claim's state machine `specGateEval`: segment `i > 0`
executes iff its operator is `;`, or `&&` with live status 0, or `||`
with non-zero live status; a skipped segment does not update the live
status - except that once an executed segment raises the shell-exit
request (`exit`), evaluation of the line stops and no later segment
executes. -/
theorem C1_gating_matches_spec_machine :
    ∀ (env : Env) (st : St) (line : String),
      execute_line env st line = claimExecuteLine env st line := by
  intro env st line
  simp only [execute_line, claimExecuteLine]
  cases hts : shlexSplit line with
  | none => rfl
  | some tokens =>
    cases he : tokens.isEmpty with
    | true => simp [he]
    | false =>
      simp only [he, Bool.false_eq_true, if_false]
      cases hseg : segmentize tokens with
      | mk segs ops =>
        have hops : ∀ o ∈ ops, o ∈ opTokens := by
          have h := segmentize_ops tokens
          rw [hseg] at h
          exact h
        cases segs with
        | nil => rfl
        | cons s ss =>
          simp only [pairSegs, runSegsAux, specGateEval]
          cases hpipe : containsChar s '|' with
          | true =>
            cases hr : run_pipeline env st s with
            | mk c st' =>
              simpa [hr] using
                runSegsAux_eq_specGateEval env _
                  (pairSegs_tail_ops ss ops hops) _ _ _ _ _
          | false =>
            cases hr : run_command env st s with
            | normal c st' =>
              simpa [hr] using
                runSegsAux_eq_specGateEval env _
                  (pairSegs_tail_ops ss ops hops) _ _ _ _ _
            | exitReq st' => simp [hr]

/-! ## Claim C2 -/

/-- Claim C2 counterexample: in the pipeline `x | cd` the builtin `cd`
occupies the second stage; the pipeline is aborted with status 1, but one
child process (for the first stage `x`) was spawned before the abort and
then killed - not zero processes as claimed. -/
theorem C2_counterexample :
    run_pipeline env0 st0 "x | cd" =
      (1, ⟨[], [Event.spawnStage "x", Event.killStage "x"]⟩) ∧
    Event.spawnStage "x" ∈ (run_pipeline env0 st0 "x | cd").2.events := by
  refine ⟨by decide, by decide⟩

/-- Claim C2 (amended): if the first word of some pipeline stage names a
builtin (and no earlier stage does), the whole pipeline is aborted with
status 1; no process is spawned for the builtin stage or any later
stage; the earlier stages that spawned successfully are spawned and then
killed. -/
theorem C2_builtin_aborts_pipeline (env : Env) (st : St) (line : String)
    (pre : List String) (c : String) (post : List String)
    (hsplit : pipeStages line = pre ++ c :: post)
    (hpre : ∀ x ∈ pre, firstWord x ∉ internal_commands)
    (hc : firstWord c ∈ internal_commands) :
    run_pipeline env st line =
      (1, { st with events := st.events ++
          (pre.takeWhile env.stageSpawnOk).map Event.spawnStage ++
          (pre.takeWhile env.stageSpawnOk).map Event.killStage }) := by
  have hne : pipeStages line ≠ [] := pipeStages_ne_nil line
  simp only [run_pipeline, isEmpty_false_of_ne_nil hne]
  rw [hsplit, pipelineLoop_builtin_abort env c post hc pre [] st.events hpre]
  simp [List.append_assoc]

/-- Claim C2 witness: `ls | cd` on the concrete world aborts with
status 1 after spawning and killing the first stage only. -/
theorem C2_builtin_aborts_pipeline_witness :
    run_pipeline env0 st0 "ls | cd" =
      (1, ⟨[], [Event.spawnStage "ls", Event.killStage "ls"]⟩) := by
  have h := C2_builtin_aborts_pipeline env0 st0 "ls | cd" ["ls"] "cd" []
    (by decide) (by decide) (by decide)
  exact h.trans (by decide)

/-! ## Claim C3 -/

/-- Claim C3 counterexample: tokenizing `e ";" x` erases the quotes, so
the quoted `;` still splits the line into the two segments `e` and `x`
with operator `;`; and in `x "a|b"` the quoted `|` still causes the
segment to run as a pipeline with stages `x a` and `b` (two stage
processes are spawned). -/
theorem C3_counterexample :
    shlexSplit "e \";\" x" = some ["e", ";", "x"] ∧
    segmentize ["e", ";", "x"] = (["e", "x"], [";"]) ∧
    execute_line env0 st0 "x \"a|b\"" =
      LineOut.finished ⟨[], [Event.spawnStage "x a", Event.spawnStage "b",
        Event.waitStage "x a", Event.waitStage "b"]⟩ 0 [0] := by
  refine ⟨by decide, by decide, by decide⟩

/-- Claim C3 (amended): quoting does not remove the special meaning of
operator characters, because quote information is erased by tokenization
before segmentation: execution depends only on the token list, a quoted
standalone `;` produces the same token list as an unquoted one, and a
quoted `|` is still found by the substring test on the rejoined
segment. -/
theorem C3_quoting_erased :
    (∀ (env : Env) (st : St) (l1 l2 : String),
        shlexSplit l1 = shlexSplit l2 →
        execute_line env st l1 = execute_line env st l2) ∧
    shlexSplit "e \";\" x" = shlexSplit "e ; x" ∧
    shlexSplit "x \"a|b\"" = some ["x", "a|b"] ∧
    containsChar (joinSpace ["x", "a|b"]) '|' = true := by
  refine ⟨?_, by decide, by decide, by decide⟩
  intro env st l1 l2 h
  simp only [execute_line, h]

/-- Claim C3 witness: the quoted and unquoted `;` lines execute
identically. -/
theorem C3_quoting_erased_witness :
    execute_line env0 st0 "e \";\" x" = execute_line env0 st0 "e ; x" :=
  C3_quoting_erased.1 env0 st0 "e \";\" x" "e ; x" (by decide)

/-! ## Claim C4 -/

/-- Claim C4 (confirmed): evaluating shell.py's top-level statements in
order fails with a `NameError` on `internal_cd` when the
`internal_commands` dict literal is evaluated (its value expressions
name `internal_cd`, `internal_ls` and `internal_echo`, which are defined
only later), so the `main()` call - and hence the interactive loop - is
never reached and no input line is ever processed. -/
theorem C4_module_init_name_error :
    runModule shellModule [] = ModuleOutcome.nameError "internal_cd" ∧
    runModule shellModule [] ≠ ModuleOutcome.enteredMain := by
  refine ⟨by decide, by decide⟩

/-! ## Claim C5 -/

/-- Claim C5 counterexample: with `B` bound to `5`, executing the raw
line `A=$B` stores the unexpanded text `$B` in `A`, while executing the
pre-expanded text of the same line (which is `A=5`) stores `5`; hence
execution is not equivalent to expanding the whole line first, and
expansion is skipped for assignment segments. -/
theorem C5_counterexample :
    expand_vars env0 [("B", "5")] "A=$B" = "A=5" ∧
    execute_line env0 ⟨[("B", "5")], []⟩ "A=$B" =
      LineOut.finished ⟨[("B", "5"), ("A", "$B")], []⟩ 0 [0] ∧
    execute_line env0 ⟨[("B", "5")], []⟩ "A=5" =
      LineOut.finished ⟨[("B", "5"), ("A", "5")], []⟩ 0 [0] ∧
    ("$B" : String) ≠ "5" := by
  refine ⟨by decide, by decide, by decide, by decide⟩

/-- Claim C5 (amended): variable expansion happens per segment inside
single-command dispatch - after stripping and after the assignment
intercept, and before whitespace-splitting; an assignment segment stores
its value unexpanded, and a pipeline segment is never expanded at all
(`run_pipeline` is independent of the variable store). -/
theorem C5_expansion_per_segment :
    (∀ (env : Env) (st : St) (s : String), pyStrip s ≠ "" →
        assign_variable st.vars (pyStrip s) = none →
        run_command env st s =
          dispatchWords env st
            (pySplit (expand_vars env st.vars (pyStrip s)))) ∧
    (∀ (env : Env) (st : St) (s : String) (vars' : List (String × String)),
        pyStrip s ≠ "" → assign_variable st.vars (pyStrip s) = some vars' →
        run_command env st s = CmdRes.normal 0 { st with vars := vars' }) ∧
    (∀ (env : Env) (vars : List (String × String)) (evs : List Event)
        (line : String),
        run_pipeline env ⟨vars, evs⟩ line =
          ((run_pipeline env ⟨[], evs⟩ line).1,
           ⟨vars, (run_pipeline env ⟨[], evs⟩ line).2.events⟩)) :=
  ⟨fun env st s h1 h2 => run_command_eq_dispatch env st s h1 h2,
   fun env st s vars' h1 h2 => run_command_assign env st s vars' h1 h2,
   fun env vars evs line => run_pipeline_vars_independent env vars evs line⟩

/-- Claim C5 witness: the command segment `e $X` is dispatched on the
whitespace split of its own expansion. -/
theorem C5_expansion_per_segment_witness :
    run_command env0 st0 "e $X" =
      dispatchWords env0 st0
        (pySplit (expand_vars env0 st0.vars (pyStrip "e $X"))) :=
  C5_expansion_per_segment.1 env0 st0 "e $X" (by decide) (by decide)

/-! ## Claim C6 -/

/-- Claim C6 counterexample: the line `a ;` tokenizes to one segment but
one operator, not `len(segments) - 1 = 0` operators: a trailing operator
closes a segment and records an operator while the final `if current`
check adds no trailing empty segment. -/
theorem C6_counterexample :
    shlexSplit "a ;" = some ["a", ";"] ∧
    segmentize ["a", ";"] = (["a"], [";"]) ∧
    (segmentize ["a", ";"]).2.length ≠ (segmentize ["a", ";"]).1.length - 1 := by
  refine ⟨by decide, by decide, by decide⟩

/-- Claim C6 (amended): for every input line that tokenizes to at least
one token, the segmenter produces `len(segments) - 1` operators when the
final token is not an operator (including lines beginning with an
operator), but `len(segments)` operators when the final token is an
operator. -/
theorem C6_operator_count (line : String) (ts : List String) (t : String)
    (_htok : shlexSplit line = some ts) (hlast : ts.getLast? = some t) :
    (segmentize ts).1.length =
      (segmentize ts).2.length + (if t ∈ opTokens then 0 else 1) := by
  have h := segmentizeAux_length ts [] [] [] rfl
  rw [hlast] at h
  simpa [segmentize] using h

/-- Claim C6 witness: the single-token line `a` yields one segment and
zero operators. -/
theorem C6_operator_count_witness :
    (segmentize ["a"]).1.length =
      (segmentize ["a"]).2.length + (if "a" ∈ opTokens then 0 else 1) :=
  C6_operator_count "a" ["a"] "a" (by decide) (by decide)

/-! ## Claim C7 -/

/-- Claim C7 counterexample: on `nosuch ; && e ok`, segment 0 fails with
127 and segment 1 is empty; the empty segment executes as a no-op but
sets the live status to 0, so the `&&`-gated segment 3 executes (indices
0, 1, 2 are all executed) - under the claim the live status would still
be 127 and the `&&` segment would be skipped. -/
theorem C7_counterexample :
    segmentize ["nosuch", ";", "&&", "e", "ok"] =
      (["nosuch", "", "e ok"], [";", "&&"]) ∧
    run_command env0 st0 "nosuch" = CmdRes.normal 127 st0 ∧
    run_command env0 st0 "" = CmdRes.normal 0 st0 ∧
    execute_line env0 st0 "nosuch ; && e ok" =
      LineOut.finished ⟨[], [Event.builtin "e" ["ok"]]⟩ 0 [0, 1, 2] := by
  refine ⟨by decide, by decide, by decide, by decide⟩

/-- Claim C7 (amended): an empty segment is a no-op in that it executes
no command, records no event and raises no error - but it returns status
0, so it sets the live exit status used for the next operator decision
to 0 rather than leaving it unchanged. -/
theorem C7_empty_segment (env : Env) (st : St) (s : String)
    (h : pyStrip s = "") : run_command env st s = CmdRes.normal 0 st :=
  run_command_blank env st s h

/-- Claim C7 witness: the empty segment itself. -/
theorem C7_empty_segment_witness :
    run_command env0 st0 "" = CmdRes.normal 0 st0 :=
  C7_empty_segment env0 st0 "" (by decide)

/-! ## Claim C8 -/

/-- Claim C8 (confirmed): when no stage's first word is a builtin and
every stage spawns successfully, every stage is spawned and waited on in
order and the pipeline's status is the exit status of the last stage -
the statuses of earlier stages do not appear in the result at all. -/
theorem C8_pipeline_last_stage_status (env : Env) (st : St) (line : String)
    (h : ∀ x ∈ pipeStages line,
      firstWord x ∉ internal_commands ∧ env.stageSpawnOk x = true) :
    run_pipeline env st line =
      (lastStageStatus env (pipeStages line),
       { st with events := st.events ++
           (pipeStages line).map Event.spawnStage ++
           (pipeStages line).map Event.waitStage }) := by
  have hne := pipeStages_ne_nil line
  simp only [run_pipeline, isEmpty_false_of_ne_nil hne]
  rw [pipelineLoop_all_ok env (pipeStages line) [] st.events h]
  simp [List.append_assoc]

/-- Claim C8 witness: the two-stage pipeline `a | b` spawns and waits on
both stages and reports the last stage's status. -/
theorem C8_pipeline_last_stage_status_witness :
    run_pipeline env0 st0 "a | b" =
      (0, ⟨[], [Event.spawnStage "a", Event.spawnStage "b",
        Event.waitStage "a", Event.waitStage "b"]⟩) := by
  have h := C8_pipeline_last_stage_status env0 st0 "a | b" (by decide)
  exact h.trans (by decide)

/-! ## Claim C9 -/

/-- Claim C9 (confirmed): quoted word grouping is not preserved through
dispatch: the dispatcher splits the expansion of the space-rejoined
segment, and splitting a space-join concatenates the individual splits,
so the quoted argument of `e "a  b"` (one token `a  b`) reaches the
builtin `e` as the two argv entries `a` and `b`. -/
theorem C9_quoted_grouping_lost :
    (∀ ts : List String, pySplit (joinSpace ts) = (ts.map pySplit).flatten) ∧
    shlexSplit "e \"a  b\"" = some ["e", "a  b"] ∧
    execute_line env0 st0 "e \"a  b\"" =
      LineOut.finished ⟨[], [Event.builtin "e" ["a", "b"]]⟩ 0 [0] := by
  refine ⟨pySplit_joinSpace, by decide, by decide⟩

/-! ## Claim C10 -/

/-- Claim C10 counterexample: the segment `export =5` has an identifier
(`export`) before its first `=`, yet the assignment intercept does not
fire because the stripped line starts with `export `; the segment falls
through to command resolution and fails with 127. -/
theorem C10_counterexample :
    pyIsIdentifier (pyStrip (breakAtEq "export =5").1) = true ∧
    assign_variable [] "export =5" = none ∧
    run_command env0 st0 "export =5" = CmdRes.normal 127 st0 := by
  refine ⟨by decide, by decide, by decide⟩

/-- Claim C10 (amended): the assignment intercept fires for every
segment whose stripped text contains `=`, does not start with `export `,
and whose text before the first `=` strips to an identifier - including
forms with whitespace around `=` such as `X = 5`, which binds `X` to
`5`; it runs before expansion, so the stored value is the stripped raw
text, and the segment returns status 0 without reaching builtin or
external resolution (no event is recorded). -/
theorem C10_assignment_intercept :
    (∀ (env : Env) (st : St) (s t : String),
        pyStrip s = t →
        containsChar t '=' = true →
        pyStartsWith (pyStrip t) "export " = false →
        pyIsIdentifier (pyStrip (breakAtEq t).1) = true →
        run_command env st s =
          CmdRes.normal 0
            { st with
              vars := assocSet st.vars (pyStrip (breakAtEq t).1)
                        (pyStrip (breakAtEq t).2) }) ∧
    assign_variable [] "X = 5" = some [("X", "5")] := by
  constructor
  · intro env st s t ht h1 h2 h3
    subst ht
    have hne : pyStrip s ≠ "" := by
      intro he
      rw [he] at h1
      exact absurd h1 (by decide)
    have hassign : assign_variable st.vars (pyStrip s) =
        some (assocSet st.vars (pyStrip (breakAtEq (pyStrip s)).1)
          (pyStrip (breakAtEq (pyStrip s)).2)) := by
      simp [assign_variable, h1, h2, h3]
    exact run_command_assign env st s _ hne hassign
  · decide

/-- Claim C10 witness: `X = 5` binds `X` to `5` with status 0. -/
theorem C10_assignment_intercept_witness :
    run_command env0 st0 "X = 5" = CmdRes.normal 0 ⟨[("X", "5")], []⟩ := by
  have h := C10_assignment_intercept.1 env0 st0 "X = 5" (pyStrip "X = 5") rfl
    (by decide) (by decide) (by decide)
  exact h.trans (by decide)

end TrashShell
